import Mathlib

/-!
Verification of the tunnelx tunnel-lifecycle subsystem.

This file gives a shallow embedding of the tunnelx agent (main.go and the
sshr package) and proves or refutes the frozen claims about it.

Modelling conventions:
* A session attempt's interaction with the network is an oracle
  (`SessionEnv`): whether the secure-shell dial succeeds, whether the remote
  listen succeeds, and the finite trace of accept-loop iterations until the
  loop terminates.  An accept loop that never terminates corresponds to a
  result of `none`.
* Observable actions (control-plane calls, cancellation, process exit) are
  recorded as events in lists, in program order.
* Go `error` results are `Except String Unit`; `nil` is `Except.ok ()`.
-/

set_option autoImplicit false

/-- Outcome of one iteration of the accept loop in `SSHR.Run`
(src/unnamed/part_000, lines 48-67): either the `select` observes the
cancelled context at the top of the loop, or `listener.Accept()` fails,
or a connection is accepted (carrying whether the subsequent
`net.Dial("tcp", LocalTarget)` inside `handleConn` succeeds). -/
inductive AcceptIter where
  | cancelled : AcceptIter
  | acceptFail (msg : String) : AcceptIter
  | connection (localDialOk : Bool) : AcceptIter
  deriving DecidableEq, Repr

/-- Oracle for one tunnel-session attempt: the dial result, the remote
listen result, and the accept-loop iterations that occur. -/
structure SessionEnv where
  dialOk : Bool
  listenOk : Bool
  iters : List AcceptIter
  deriving DecidableEq, Repr

/-- Observable events of one session run. `successHook` is the success
callback main.go installs (`SuccessHook` field, main.go lines 325-334);
`connForwarded` and `connDropped` record the fate of each accepted
connection. -/
inductive SessEvent where
  | successHook : SessEvent
  | connForwarded : SessEvent
  | connDropped : SessEvent
  deriving DecidableEq, Repr

/-- Embedding of `SSHR.handleConn` (src/unnamed/part_000, lines 70-78):
it returns an error exactly when the initial `net.Dial` to the local
target fails; the two byte-copy goroutines it spawns never report an
error to the caller. -/
def SSHR.handleConn (localDialOk : Bool) : Except String Unit :=
  if localDialOk then Except.ok () else Except.error "dial tcp: connection refused"

/-- Embedding of the accept loop of `SSHR.Run` (src/unnamed/part_000,
lines 48-67): each iteration first polls the context (cancelled context
returns `nil`), then accepts (an accept failure returns an error), and a
`handleConn` error is logged and the loop continues.  `none` means the
trace ran out before the loop returned. -/
def SSHR.acceptLoop : List AcceptIter → Option (Except String Unit) × List SessEvent
  | [] => (none, [])
  | AcceptIter.cancelled :: _ => (some (Except.ok ()), [])
  | AcceptIter.acceptFail msg :: _ =>
      (some (Except.error ("error accepting connection: " ++ msg)), [])
  | AcceptIter.connection ok :: rest =>
      let r := SSHR.acceptLoop rest
      match SSHR.handleConn ok with
      | Except.ok _ => (r.1, SessEvent.connForwarded :: r.2)
      | Except.error _ => (r.1, SessEvent.connDropped :: r.2)

/-- Embedding of `SSHR.Run` (src/unnamed/part_000, lines 35-68): dial the
secure-shell server (failure returns an error), open the remote listener
(failure returns an error), then run the accept loop.

Modelled from the spec: the invocation of the success callback on entry
into `Forwarding`.  main.go (lines 325-334) sets a `SuccessHook` field on
`sshr.Config`, but the copy of the sshr package under
src/unnamed/part_000 lacks that field and its call site; per spec §4.3
the callback fires exactly once per session, on successful entry into
`Forwarding` (after dial and remote listen both succeed, before the
accept loop). -/
def SSHR.Run (env : SessionEnv) : Option (Except String Unit) × List SessEvent :=
  if env.dialOk then
    if env.listenOk then
      let r := SSHR.acceptLoop env.iters
      (r.1, SessEvent.successHook :: r.2)
    else (some (Except.error "remote listen failed"), [])
  else (some (Except.error "error dialing"), [])

/-- A session reaches the `Forwarding` state exactly when both the dial
and the remote listen succeed. -/
def reachesForwarding (env : SessionEnv) : Bool :=
  env.dialOk && env.listenOk

/-- Go error test `err != nil` on a session result. -/
def isSessionError : Except String Unit → Bool
  | Except.error _ => true
  | Except.ok _ => false

/-- Action the supervisor's retry loop takes after one attempt. -/
inductive RetryAction where
  | fatal (msg : String) : RetryAction
  | sleepSec (seconds : Nat) : RetryAction
  | reset : RetryAction
  deriving DecidableEq, Repr

/-- Embedding of one iteration of the session retry loop in `process`
(main.go lines 185-201): on error the counter increments, and the process
dies once it exceeds 10, otherwise sleeps `retryCount*5` seconds; on a
`nil` return the counter resets to zero. -/
def retryStep (retryCount : Nat) (errored : Bool) : Nat × RetryAction :=
  if errored then
    let rc := retryCount + 1
    if rc > 10 then (rc, RetryAction.fatal "Exceeded maximum retry attempts for creating tunnels")
    else (rc, RetryAction.sleepSec (rc * 5))
  else (0, RetryAction.reset)

/-- The session retry loop of `process` (main.go lines 185-201), driven by
a finite list of per-attempt `err != nil` outcomes; it records the counter
value and action after each attempt and stops at a fatal action. -/
def runSupervisor (retryCount : Nat) : List Bool → List (Nat × RetryAction)
  | [] => []
  | e :: es =>
    let s := retryStep retryCount e
    match s.2 with
    | RetryAction.fatal _ => [s]
    | _ => s :: runSupervisor s.1 es

/-- Composition of the retry loop with a session run: the counter update
the supervisor performs once the session attempt `env` returns (`none`
when the attempt never returns). -/
def supervisorNext (retryCount : Nat) (env : SessionEnv) : Option (Nat × RetryAction) :=
  (SSHR.Run env).1.map (fun e => retryStep retryCount (isSessionError e))

/-- Whether the first terminating accept-loop iteration is a context
cancellation (as opposed to an accept failure). -/
def firstStopIsCancel : List AcceptIter → Bool
  | [] => false
  | AcceptIter.cancelled :: _ => true
  | AcceptIter.acceptFail _ :: _ => false
  | AcceptIter.connection _ :: rest => firstStopIsCancel rest

/-- A session run returns `nil` exactly when dial and listen succeeded and
the accept loop observed cancellation before any accept failure. -/
def cleanlyCancelled (env : SessionEnv) : Bool :=
  env.dialOk && env.listenOk && firstStopIsCancel env.iters

/-- Session attempt that reaches `Forwarding`, forwards one connection,
and then fails with an accept error. -/
def envC1 : SessionEnv :=
  { dialOk := true, listenOk := true,
    iters := [AcceptIter.connection true, AcceptIter.acceptFail "connection reset"] }

/-- Result of one `/in` (Register) HTTP call: transport failure or an HTTP
status code. -/
inductive TickOutcome where
  | transportErr : TickOutcome
  | status (code : Nat) : TickOutcome
  deriving DecidableEq, Repr

/-- One turn of the `select` in the heartbeat loop of `In`: either the
context is cancelled or the minute ticker fires and a Register call is
made. -/
inductive TickStep where
  | cancelled : TickStep
  | tick (o : TickOutcome) : TickStep
  deriving DecidableEq, Repr

/-- Observable events of the heartbeat path: the Register (`/in`) call and
its success, the Rename (`/rename`) call, the "connection succeeded"
banner, the Deregister (`/out`) call, the process-wide `cancel()`, and
process termination via `printConnectionFailure` (which ends in
`os.Exit(1)`). -/
inductive HBEvent where
  | registerCall : HBEvent
  | registerOk : HBEvent
  | renameCall (name : String) : HBEvent
  | printSuccess : HBEvent
  | deregisterCall : HBEvent
  | cancelProcess : HBEvent
  | exitProcess : HBEvent
  deriving DecidableEq, Repr

/-- Embedding of `inFunctionTickCallback` (main.go lines 398-441): issue
the Register call; a transport failure or a non-200 status is returned as
an error.  On success, when this is the first tick of the loop and a
non-empty agent name is configured, the Rename call is issued (its own
failure is only logged), and while `connectionSucceededCount < 2` the
counter is incremented and the success banner printed.  Returns the Go
error, the updated `connectionSucceededCount`, and the events in program
order. -/
def inFunctionTickCallback (agentName : String) (first : Bool) (succCount : Nat)
    (o : TickOutcome) : Except String Unit × Nat × List HBEvent :=
  match o with
  | TickOutcome.transportErr =>
      (Except.error "failed to call the in endpoint", succCount, [HBEvent.registerCall])
  | TickOutcome.status code =>
      if code ≠ 200 then
        (Except.error "unexpected status code from the in endpoint", succCount,
          [HBEvent.registerCall])
      else if first && agentName ≠ "" then
        if succCount < 2 then
          (Except.ok (), succCount + 1,
            [HBEvent.registerCall, HBEvent.registerOk, HBEvent.renameCall agentName,
              HBEvent.printSuccess])
        else
          (Except.ok (), succCount,
            [HBEvent.registerCall, HBEvent.registerOk, HBEvent.renameCall agentName])
      else
        if succCount < 2 then
          (Except.ok (), succCount + 1,
            [HBEvent.registerCall, HBEvent.registerOk, HBEvent.printSuccess])
        else (Except.ok (), succCount, [HBEvent.registerCall, HBEvent.registerOk])

/-- The ticker loop of `In` (main.go lines 386-395): every later tick runs
`inFunctionTickCallback` with `first = false`; a cancelled context returns
`ctx.Err()` and a tick error is returned as-is.  `none` means the loop is
still running. -/
def inTickLoop (agentName : String) (succCount : Nat) :
    List TickStep → Option (Except String Unit) × Nat × List HBEvent
  | [] => (none, succCount, [])
  | TickStep.cancelled :: _ => (some (Except.error "context canceled"), succCount, [])
  | TickStep.tick o :: rest =>
    match inFunctionTickCallback agentName false succCount o with
    | (Except.error e, sc1, evs) => (some (Except.error e), sc1, evs)
    | (Except.ok _, sc1, evs) =>
      match inTickLoop agentName sc1 rest with
      | (r, sc2, evs2) => (r, sc2, evs ++ evs2)

/-- Embedding of `In` (main.go lines 371-396): run the first Register
immediately (`first = true`), then the minute ticker loop; whenever `In`
returns, its deferred cleanup issues one Deregister (`Out`) call and then
calls the process-wide `cancel()`.  Note every return path of `In` carries
a non-nil error (a tick error or `ctx.Err()`). -/
def In (agentName : String) (succCount : Nat) (firstOutcome : TickOutcome)
    (steps : List TickStep) : Option (Except String Unit) × Nat × List HBEvent :=
  match inFunctionTickCallback agentName true succCount firstOutcome with
  | (Except.error e, sc1, evs) =>
      (some (Except.error e), sc1, evs ++ [HBEvent.deregisterCall, HBEvent.cancelProcess])
  | (Except.ok _, sc1, evs) =>
    match inTickLoop agentName sc1 steps with
    | (none, sc2, evs2) => (none, sc2, evs ++ evs2)
    | (some e, sc2, evs2) =>
        (some e, sc2, evs ++ evs2 ++ [HBEvent.deregisterCall, HBEvent.cancelProcess])

/-- The goroutine spawned by the `SuccessHook` in `createTunnelsWithGoSSH`
(main.go lines 329-333): it runs `In` and, if `In` returns an error (it
always does when it returns), calls `printConnectionFailure`, which prints
diagnostics and terminates the process with `os.Exit(1)`. -/
def heartbeatGoroutine (agentName : String) (succCount : Nat) (firstOutcome : TickOutcome)
    (steps : List TickStep) : Option (Except String Unit) × Nat × List HBEvent :=
  match In agentName succCount firstOutcome steps with
  | (none, sc, evs) => (none, sc, evs)
  | (some (Except.error e), sc, evs) =>
      (some (Except.error e), sc, evs ++ [HBEvent.exitProcess])
  | (some (Except.ok u), sc, evs) => (some (Except.ok u), sc, evs)

/-- Whole-process heartbeat activity: main.go starts one heartbeat
goroutine per session that reaches `Forwarding` (the `SuccessHook` first
increments `connectionSucceededCount`, then spawns the `In` goroutine).
The runs' events are listed run by run; concurrent goroutines may
interleave their events in reality, which does not change per-run event
counts. -/
def processHeartbeatEvents (agentName : String) :
    Nat → List (TickOutcome × List TickStep) → List HBEvent
  | _, [] => []
  | succCount, (f, steps) :: rest =>
    match heartbeatGoroutine agentName (succCount + 1) f steps with
    | (_, sc, evs) => evs ++ processHeartbeatEvents agentName sc rest

/-- Events emitted only by the cleanup/teardown paths: the deferred
Deregister, the process-wide cancellation, and process exit. -/
def isCleanupEvent : HBEvent → Bool
  | HBEvent.deregisterCall => true
  | HBEvent.cancelProcess => true
  | HBEvent.exitProcess => true
  | _ => false

/-- Two sessions that reach `Forwarding`, each with a healthy heartbeat
loop that is still running (no failure, no cancellation). -/
def c7Runs : List (TickOutcome × List TickStep) :=
  [(TickOutcome.status 200, []), (TickOutcome.status 200, [])]

/-- Split a character list at every dot, mirroring how a dotted-quad
parser isolates the four fields. -/
def splitOnDot : List Char → List (List Char)
  | [] => [[]]
  | c :: rest =>
    if c = '.' then [] :: splitOnDot rest
    else
      match splitOnDot rest with
      | [] => [[c]]
      | f :: fs => (c :: f) :: fs

/-- Decimal value of a digit field. -/
def digitsVal (l : List Char) : Nat :=
  l.foldl (fun a c => a * 10 + (c.toNat - 48)) 0

/-- A valid dotted-quad field: one to three digits, value at most 255, no
leading zero. -/
def isOctet (f : List Char) : Bool :=
  f ≠ ([] : List Char) && f.length ≤ 3 && f.all Char.isDigit && digitsVal f ≤ 255 &&
    (f.length = 1 || f.head? ≠ some '0')

/-- Model of `iputil.IsIP` (`net.ParseIP(s) != nil`, main.go line 301),
restricted to IPv4 dotted-quad literals: the strings this program feeds it
are either bare IPv4 literals or CIDR strings `ip/prefix` produced by
`net.IPNet.String()`, and `net.ParseIP` accepts the former and rejects the
latter (a `/` can appear in neither an IPv4 nor an IPv6 literal). -/
def isIP (s : String) : Bool :=
  (splitOnDot s.toList).length = 4 && (splitOnDot s.toList).all isOctet

/-- Model of the `net.Addr` values `iface.Addrs()` yields (main.go lines
293-304): a `*net.IPNet`, whose `String()` is the CIDR form
`ip ++ "/" ++ prefixLength`, or any other address kind with its raw
string. -/
inductive NetAddr where
  | ipNet (ip : String) (maskBits : Nat) : NetAddr
  | plain (s : String) : NetAddr
  deriving DecidableEq, Repr

/-- The `addr.String()` call of `getLocalIPs` (main.go line 300). -/
def NetAddr.str : NetAddr → String
  | NetAddr.ipNet ip m => ip ++ "/" ++ toString m
  | NetAddr.plain s => s

/-- The interface loop of `getLocalIPs` (main.go lines 293-305): for each
interface, `iface.Addrs()` may fail (the error is returned immediately);
otherwise each address is stringified and kept only if `iputil.IsIP`
accepts it. -/
def collectLocalIPs : List (Except String (List NetAddr)) → Except String (List String)
  | [] => Except.ok []
  | Except.error e :: _ => Except.error e
  | Except.ok addrs :: rest =>
    match collectLocalIPs rest with
    | Except.error e => Except.error e
    | Except.ok ips => Except.ok ((addrs.map NetAddr.str).filter isIP ++ ips)

/-- Embedding of `getLocalIPs` (main.go lines 286-308): `net.Interfaces()`
may itself fail, and that error is returned as-is. -/
def getLocalIPs (ifaces : Except String (List (Except String (List NetAddr)))) :
    Except String (List String) :=
  match ifaces with
  | Except.error e => Except.error e
  | Except.ok l => collectLocalIPs l

/-- Embedding of `isServiceAccessibleFromInternet` (main.go lines
255-267): a failure to fetch the public IP or to enumerate interfaces is
returned as an error; otherwise the probe reports whether the public IP
occurs among the local IPs. -/
def isServiceAccessibleFromInternet (pubIP : Except String String)
    (ifaces : Except String (List (Except String (List NetAddr)))) : Except String Bool :=
  match pubIP with
  | Except.error e => Except.error e
  | Except.ok pub =>
    match getLocalIPs ifaces with
    | Except.error e => Except.error e
    | Except.ok locals => Except.ok (locals.contains pub)

/-- What `process` does with the probe result (main.go lines 143-154): on
a probe error it calls `printConnectionFailure`, which prints diagnostics
and calls `os.Exit(1)` (main.go lines 212-221); on `true` it binds the
proxy on the public IP; on `false` it binds on all interfaces. -/
inductive ListenChoice where
  | exitProcess : ListenChoice
  | bindOn (ip : String) : ListenChoice
  deriving DecidableEq, Repr

/-- The listen-address decision of `process` (main.go lines 143-154). -/
def chooseListenIp (probe : Except String Bool) (pub : String) : ListenChoice :=
  match probe with
  | Except.error _ => ListenChoice.exitProcess
  | Except.ok true => ListenChoice.bindOn pub
  | Except.ok false => ListenChoice.bindOn "0.0.0.0"

/-- Control-plane-visible actions of `process` in tunnel mode: the
startup Deregister (`Out`, main.go line 165), the port-allocation call
(`getFreePortFromServer`, main.go line 167), the startup exit on
allocation failure (`printConnectionFailure`), and each session attempt's
secure-shell dial, tagged with the remote listen port its `sshr.Config`
carries (main.go line 322). -/
inductive ProcEvent where
  | deregister : ProcEvent
  | allocatePortCall : ProcEvent
  | exitStartup : ProcEvent
  | dial (remotePort : Nat) : ProcEvent
  deriving DecidableEq, Repr

/-- Embedding of the tunnel-mode (non-accessible) branch of `process`
(main.go lines 161-201): first `Out(ctx)` issues the Deregister, then
`getFreePortFromServer` issues the one AllocatePort call; if it fails,
`printConnectionFailure` exits the process; otherwise the session retry
loop runs `createTunnelsWithGoSSH` once per attempt, and every attempt
dials with `RemoteListenAddr = "0.0.0.0:<port>"` built from the single
port stored in the global `reverseProxyPort` — the loop never calls
`getFreePortFromServer` again. -/
def processTunnelModeEvents (allocResult : Except String Nat)
    (attempts : List SessionEnv) : List ProcEvent :=
  ProcEvent.deregister ::
    match allocResult with
    | Except.error _ => [ProcEvent.allocatePortCall, ProcEvent.exitStartup]
    | Except.ok p => ProcEvent.allocatePortCall :: attempts.map (fun _ => ProcEvent.dial p)

lemma acceptLoop_ok_iff (l : List AcceptIter) :
    (SSHR.acceptLoop l).1 = some (Except.ok ()) ↔ firstStopIsCancel l = true := by
  induction l with
  | nil => simp [SSHR.acceptLoop, firstStopIsCancel]
  | cons a rest ih =>
    cases a with
    | cancelled => simp [SSHR.acceptLoop, firstStopIsCancel]
    | acceptFail msg => simp [SSHR.acceptLoop, firstStopIsCancel]
    | connection ok =>
      cases ok with
      | true => simpa [SSHR.acceptLoop, firstStopIsCancel, SSHR.handleConn] using ih
      | false => simpa [SSHR.acceptLoop, firstStopIsCancel, SSHR.handleConn] using ih

lemma retryStep_true_fst (rc : Nat) : (retryStep rc true).1 = rc + 1 := by
  by_cases h : rc + 1 > 10 <;> simp [retryStep, h]

lemma retryStep_false (rc : Nat) : retryStep rc false = (0, RetryAction.reset) := rfl

lemma run_fst_ok_iff (env : SessionEnv) :
    (SSHR.Run env).1 = some (Except.ok ()) ↔ cleanlyCancelled env = true := by
  unfold SSHR.Run cleanlyCancelled
  cases hd : env.dialOk with
  | false => simp [hd]
  | true =>
    cases hl : env.listenOk with
    | false => simp [hd, hl]
    | true => simpa [hd, hl] using acceptLoop_ok_iff env.iters

/-- C1 (amended): the supervisor resets the retry counter to zero exactly
when the session run returned `nil`, which happens exactly when the
session was cleanly cancelled (dial and listen succeeded and the context
was cancelled before any accept failure); every erroring session —
including one that reached `Forwarding` — increments the counter. -/
theorem supervisor_reset_iff_clean_cancel (rc : Nat) (env : SessionEnv) :
    supervisorNext rc env = some (0, RetryAction.reset) ↔ cleanlyCancelled env = true := by
  rw [← run_fst_ok_iff]
  unfold supervisorNext
  constructor
  · intro h
    rcases Option.map_eq_some'.1 h with ⟨e, he, hstep⟩
    cases e with
    | ok u => cases u; exact he
    | error m =>
      exfalso
      have h1 := congrArg Prod.fst hstep
      simp [isSessionError, retryStep_true_fst] at h1
  · intro h
    rw [h]
    rfl

/-- C1 (counterexample): a session that reached `Forwarding` (it even
forwarded a connection) and only afterwards failed makes the supervisor
increment the retry counter from 0 to 1 and sleep — the counter is not
reset to zero before the next attempt, contrary to the claim. -/
theorem c1_counterexample :
    reachesForwarding envC1 = true ∧
    (SSHR.Run envC1).1 = some (Except.error "error accepting connection: connection reset") ∧
    supervisorNext 0 envC1 = some (1, RetryAction.sleepSec 5) ∧
    supervisorNext 0 envC1 ≠ some (0, RetryAction.reset) := by
  refine ⟨rfl, rfl, rfl, ?_⟩
  intro h
  exact absurd (Option.some_injective _ h) (by decide)

lemma runSupervisor_replicate_le (m : Nat) :
    ∀ rc : Nat, rc + m ≤ 10 →
      runSupervisor rc (List.replicate m true) =
        (List.range m).map (fun k => (rc + k + 1, RetryAction.sleepSec ((rc + k + 1) * 5))) := by
  induction m with
  | zero => intro rc h; rfl
  | succ m ih =>
    intro rc h
    have hrc : ¬ rc + 1 > 10 := by omega
    have hstep : retryStep rc true = (rc + 1, RetryAction.sleepSec ((rc + 1) * 5)) := by
      simp [retryStep, hrc]
    rw [List.replicate_succ]
    unfold runSupervisor
    rw [hstep]
    simp only []
    rw [ih (rc + 1) (by omega)]
    rw [List.range_succ_eq_map, List.map_cons, List.map_map]
    have hfun : ((fun k => (rc + k + 1, RetryAction.sleepSec ((rc + k + 1) * 5))) ∘ Nat.succ)
        = (fun k => (rc + 1 + k + 1, RetryAction.sleepSec ((rc + 1 + k + 1) * 5))) := by
      funext k
      have : rc + Nat.succ k + 1 = rc + 1 + k + 1 := by omega
      simp [Function.comp, this]
    rw [hfun]

lemma runSupervisor_replicate_fatal (m : Nat) :
    ∀ rc : Nat, rc ≤ 10 → 11 ≤ rc + m →
      ∃ pre, runSupervisor rc (List.replicate m true) =
          pre ++ [(11, RetryAction.fatal "Exceeded maximum retry attempts for creating tunnels")] ∧
        pre.length = 10 - rc := by
  induction m with
  | zero => intro rc h1 h2; omega
  | succ m ih =>
    intro rc h1 h2
    rw [List.replicate_succ]
    by_cases hrc : rc = 10
    · subst hrc
      refine ⟨[], ?_, rfl⟩
      unfold runSupervisor
      simp [retryStep]
    · have hlt : ¬ rc + 1 > 10 := by omega
      have hstep : retryStep rc true = (rc + 1, RetryAction.sleepSec ((rc + 1) * 5)) := by
        simp [retryStep, hlt]
      obtain ⟨pre, hpre, hlen⟩ := ih (rc + 1) (by omega) (by omega)
      refine ⟨(rc + 1, RetryAction.sleepSec ((rc + 1) * 5)) :: pre, ?_, by simp [hlen]; omega⟩
      unfold runSupervisor
      rw [hstep]
      simp only [List.cons_append]
      exact congrArg (List.cons _) hpre

/-- C3: starting from a zero counter, a run of `n ≤ 10` consecutive
session-establishment failures produces exactly `n` retries with backoff
sleeps of `5, 10, ..., n*5` seconds and no fatal exit, while a run of 11
or more consecutive failures stops after exactly 11 attempts, the last of
which is the fatal "exceeded maximum retry attempts" termination. -/
theorem retry_loop_backoff_and_ceiling (n : Nat) :
    (n ≤ 10 → runSupervisor 0 (List.replicate n true) =
      (List.range n).map (fun k => (k + 1, RetryAction.sleepSec ((k + 1) * 5)))) ∧
    (11 ≤ n → ∃ pre, runSupervisor 0 (List.replicate n true) =
        pre ++ [(11, RetryAction.fatal "Exceeded maximum retry attempts for creating tunnels")] ∧
      pre.length = 10) := by
  constructor
  · intro h
    have := runSupervisor_replicate_le n 0 (by omega)
    simpa using this
  · intro h
    have := runSupervisor_replicate_fatal n 0 (by omega) (by omega)
    simpa using this

/-- Witness for `retry_loop_backoff_and_ceiling`: with 3 consecutive
failures the loop sleeps 5s, 10s, 15s; with 11 consecutive failures it
ends in the fatal exit after 10 sleeps. -/
theorem retry_loop_backoff_and_ceiling_witness :
    runSupervisor 0 (List.replicate 3 true) =
      [(1, RetryAction.sleepSec 5), (2, RetryAction.sleepSec 10), (3, RetryAction.sleepSec 15)] ∧
    (∃ pre, runSupervisor 0 (List.replicate 11 true) =
        pre ++ [(11, RetryAction.fatal "Exceeded maximum retry attempts for creating tunnels")] ∧
      pre.length = 10) := by
  constructor
  · rw [(retry_loop_backoff_and_ceiling 3).1 (by decide)]
    rfl
  · exact (retry_loop_backoff_and_ceiling 11).2 (by decide)

lemma acceptLoop_fst_conn_cons (b : Bool) (rest : List AcceptIter) :
    (SSHR.acceptLoop (AcceptIter.connection b :: rest)).1 = (SSHR.acceptLoop rest).1 := by
  cases b <;> rfl

/-- C9: a failed dial to the local target ends only that one connection.
`handleConn` reports the dial error; the accept loop records the dropped
connection and continues, so the session's result — wherever the trace is
extended with such a connection — is exactly the result of the trace
without it, and every other connection is handled the same way. -/
theorem local_dial_failure_drops_one_connection (rest xs ys : List AcceptIter) :
    SSHR.handleConn false = Except.error "dial tcp: connection refused" ∧
    SSHR.acceptLoop (AcceptIter.connection false :: rest) =
      ((SSHR.acceptLoop rest).1, SessEvent.connDropped :: (SSHR.acceptLoop rest).2) ∧
    (SSHR.acceptLoop (xs ++ AcceptIter.connection false :: ys)).1 =
      (SSHR.acceptLoop (xs ++ ys)).1 := by
  refine ⟨rfl, rfl, ?_⟩
  induction xs with
  | nil => exact acceptLoop_fst_conn_cons false ys
  | cons a xs ih =>
    cases a with
    | cancelled => rfl
    | acceptFail msg => rfl
    | connection b =>
      rw [List.cons_append, List.cons_append,
        acceptLoop_fst_conn_cons b (xs ++ AcceptIter.connection false :: ys),
        acceptLoop_fst_conn_cons b (xs ++ ys)]
      exact ih

lemma successHook_not_mem_acceptLoop (l : List AcceptIter) :
    SessEvent.successHook ∉ (SSHR.acceptLoop l).2 := by
  induction l with
  | nil => simp [SSHR.acceptLoop]
  | cons a rest ih =>
    cases a with
    | cancelled => simp [SSHR.acceptLoop]
    | acceptFail msg => simp [SSHR.acceptLoop]
    | connection b =>
      cases b with
      | true => simpa [SSHR.acceptLoop, SSHR.handleConn] using ih
      | false => simpa [SSHR.acceptLoop, SSHR.handleConn] using ih

/-- C6: the success callback fires exactly once in every session that
reaches `Forwarding` (dial and remote listen both succeeded) and never in
a session that fails before that — one firing per session, never a
second one. -/
theorem success_hook_fires_once_iff_forwarding (env : SessionEnv) :
    List.count SessEvent.successHook (SSHR.Run env).2 =
      (if reachesForwarding env = true then 1 else 0) := by
  unfold SSHR.Run reachesForwarding
  cases hd : env.dialOk with
  | false => simp
  | true =>
    cases hl : env.listenOk with
    | false => simp
    | true =>
      simp only [if_true, Bool.and_self, List.count_cons_self]
      have h0 := List.count_eq_zero_of_not_mem (successHook_not_mem_acceptLoop env.iters)
      simp [h0]

lemma tickCallback_no_cleanup_all (name : String) (first : Bool) (sc : Nat) (o : TickOutcome) :
    ((inFunctionTickCallback name first sc o).2.2).all (fun ev => ! isCleanupEvent ev) = true := by
  cases o with
  | transportErr => rfl
  | status code =>
    simp only [inFunctionTickCallback]
    split_ifs <;> rfl

lemma tickCallback_no_cleanup (name : String) (first : Bool) (sc : Nat) (o : TickOutcome)
    {te : Except String Unit} {sc1 : Nat} {evs : List HBEvent}
    (h : inFunctionTickCallback name first sc o = (te, sc1, evs)) :
    ∀ ev ∈ evs, isCleanupEvent ev = false := by
  intro ev hev
  have hall := tickCallback_no_cleanup_all name first sc o
  rw [h] at hall
  rw [List.all_eq_true] at hall
  simpa using hall ev hev

lemma inTickLoop_tick_err_events (name : String) (sc : Nat) (o : TickOutcome)
    (rest : List TickStep) {e : String} {sc1 : Nat} {evs : List HBEvent}
    (h : inFunctionTickCallback name false sc o = (Except.error e, sc1, evs)) :
    (inTickLoop name sc (TickStep.tick o :: rest)).2.2 = evs := by
  unfold inTickLoop
  rw [h]

lemma inTickLoop_tick_err_fst (name : String) (sc : Nat) (o : TickOutcome)
    (rest : List TickStep) {e : String} {sc1 : Nat} {evs : List HBEvent}
    (h : inFunctionTickCallback name false sc o = (Except.error e, sc1, evs)) :
    (inTickLoop name sc (TickStep.tick o :: rest)).1 = some (Except.error e) := by
  unfold inTickLoop
  rw [h]

lemma inTickLoop_tick_ok_events (name : String) (sc : Nat) (o : TickOutcome)
    (rest : List TickStep) {u : Unit} {sc1 : Nat} {evs : List HBEvent}
    (h : inFunctionTickCallback name false sc o = (Except.ok u, sc1, evs)) :
    (inTickLoop name sc (TickStep.tick o :: rest)).2.2 =
      evs ++ (inTickLoop name sc1 rest).2.2 := by
  simp only [inTickLoop]
  rw [h]

lemma inTickLoop_tick_ok_fst (name : String) (sc : Nat) (o : TickOutcome)
    (rest : List TickStep) {u : Unit} {sc1 : Nat} {evs : List HBEvent}
    (h : inFunctionTickCallback name false sc o = (Except.ok u, sc1, evs)) :
    (inTickLoop name sc (TickStep.tick o :: rest)).1 = (inTickLoop name sc1 rest).1 := by
  simp only [inTickLoop]
  rw [h]

lemma inTickLoop_no_cleanup (name : String) :
    ∀ (steps : List TickStep) (sc : Nat), ∀ ev ∈ (inTickLoop name sc steps).2.2,
      isCleanupEvent ev = false := by
  intro steps
  induction steps with
  | nil => intro sc ev hev; simp [inTickLoop] at hev
  | cons s rest ih =>
    intro sc ev hev
    cases s with
    | cancelled => simp [inTickLoop] at hev
    | tick o =>
      rcases hT : inFunctionTickCallback name false sc o with ⟨te, sc1, evs⟩
      cases te with
      | error e =>
        rw [inTickLoop_tick_err_events name sc o rest hT] at hev
        exact tickCallback_no_cleanup name false sc o hT ev hev
      | ok u =>
        rw [inTickLoop_tick_ok_events name sc o rest hT] at hev
        rcases List.mem_append.1 hev with hm | hm
        · exact tickCallback_no_cleanup name false sc o hT ev hm
        · exact ih sc1 ev hm

lemma inTickLoop_some_is_error (name : String) :
    ∀ (steps : List TickStep) (sc : Nat) (e : Except String Unit),
      (inTickLoop name sc steps).1 = some e → ∃ m, e = Except.error m := by
  intro steps
  induction steps with
  | nil => intro sc e h; simp [inTickLoop] at h
  | cons s rest ih =>
    intro sc e h
    cases s with
    | cancelled =>
      simp [inTickLoop] at h
      exact ⟨"context canceled", h.symm⟩
    | tick o =>
      rcases hT : inFunctionTickCallback name false sc o with ⟨te, sc1, evs⟩
      cases te with
      | error m =>
        rw [inTickLoop_tick_err_fst name sc o rest hT] at h
        exact ⟨m, (Option.some_injective _ h).symm⟩
      | ok u =>
        rw [inTickLoop_tick_ok_fst name sc o rest hT] at h
        exact ih sc1 e h

lemma In_first_err (name : String) (sc : Nat) (f : TickOutcome) (steps : List TickStep)
    {e : String} {sc1 : Nat} {evs : List HBEvent}
    (h : inFunctionTickCallback name true sc f = (Except.error e, sc1, evs)) :
    In name sc f steps =
      (some (Except.error e), sc1, evs ++ [HBEvent.deregisterCall, HBEvent.cancelProcess]) := by
  unfold In
  rw [h]

lemma In_ok_reduce (name : String) (sc : Nat) (f : TickOutcome) (steps : List TickStep)
    {u : Unit} {sc1 : Nat} {evs : List HBEvent}
    (h : inFunctionTickCallback name true sc f = (Except.ok u, sc1, evs)) :
    In name sc f steps =
      (match inTickLoop name sc1 steps with
       | (none, sc2, evs2) => (none, sc2, evs ++ evs2)
       | (some e2, sc2, evs2) =>
           (some e2, sc2, evs ++ evs2 ++ [HBEvent.deregisterCall, HBEvent.cancelProcess])) := by
  unfold In
  rw [h]

lemma In_loop_none (name : String) (sc : Nat) (f : TickOutcome) (steps : List TickStep)
    {u : Unit} {sc1 : Nat} {evs : List HBEvent} {sc2 : Nat} {evs2 : List HBEvent}
    (h1 : inFunctionTickCallback name true sc f = (Except.ok u, sc1, evs))
    (h2 : inTickLoop name sc1 steps = (none, sc2, evs2)) :
    In name sc f steps = (none, sc2, evs ++ evs2) := by
  rw [In_ok_reduce name sc f steps h1, h2]

lemma In_loop_some (name : String) (sc : Nat) (f : TickOutcome) (steps : List TickStep)
    {u : Unit} {sc1 : Nat} {evs : List HBEvent} {e2 : Except String Unit} {sc2 : Nat}
    {evs2 : List HBEvent}
    (h1 : inFunctionTickCallback name true sc f = (Except.ok u, sc1, evs))
    (h2 : inTickLoop name sc1 steps = (some e2, sc2, evs2)) :
    In name sc f steps =
      (some e2, sc2, evs ++ evs2 ++ [HBEvent.deregisterCall, HBEvent.cancelProcess]) := by
  rw [In_ok_reduce name sc f steps h1, h2]

lemma heartbeatGoroutine_of_In_err (name : String) (sc : Nat) (f : TickOutcome)
    (steps : List TickStep) {e : String} {sc2 : Nat} {evs : List HBEvent}
    (h : In name sc f steps = (some (Except.error e), sc2, evs)) :
    heartbeatGoroutine name sc f steps =
      (some (Except.error e), sc2, evs ++ [HBEvent.exitProcess]) := by
  unfold heartbeatGoroutine
  rw [h]

/-- C2 (amended): whenever the heartbeat loop `In` returns — in
particular after any failed Register call — the returned value is a
non-nil error, the deferred cleanup has issued exactly one Deregister
call, the events end with that Deregister followed by the process-wide
`cancel()` (which stops the session loop and makes the accept loop return
at its next poll), and the spawning goroutine then terminates the process
via `printConnectionFailure` (`os.Exit(1)`). -/
theorem heartbeat_failure_cleanup (agentName : String) (sc : Nat) (f : TickOutcome)
    (steps : List TickStep) (e : Except String Unit)
    (hret : (In agentName sc f steps).1 = some e) :
    (∃ msg, e = Except.error msg) ∧
    List.count HBEvent.deregisterCall (In agentName sc f steps).2.2 = 1 ∧
    (∃ pre, (In agentName sc f steps).2.2 =
      pre ++ [HBEvent.deregisterCall, HBEvent.cancelProcess]) ∧
    (heartbeatGoroutine agentName sc f steps).2.2 =
      (In agentName sc f steps).2.2 ++ [HBEvent.exitProcess] := by
  have hcountTick : ∀ (first : Bool) (sc0 : Nat) (o : TickOutcome) (te : Except String Unit)
      (sc1 : Nat) (evs : List HBEvent),
      inFunctionTickCallback agentName first sc0 o = (te, sc1, evs) →
      List.count HBEvent.deregisterCall evs = 0 := by
    intro first sc0 o te sc1 evs h
    refine List.count_eq_zero_of_not_mem (fun hmem => ?_)
    have := tickCallback_no_cleanup agentName first sc0 o h HBEvent.deregisterCall hmem
    simp [isCleanupEvent] at this
  rcases hT : inFunctionTickCallback agentName true sc f with ⟨te, sc1, evs⟩
  cases te with
  | error m =>
    have hIn := In_first_err agentName sc f steps hT
    rw [hIn] at hret ⊢
    have he : e = Except.error m := by
      have : some (Except.error m) = some e := hret
      exact (Option.some_injective _ this).symm
    refine ⟨⟨m, he⟩, ?_, ⟨evs, rfl⟩, ?_⟩
    · rw [List.count_append, hcountTick true sc f _ _ _ hT]
      rfl
    · rw [heartbeatGoroutine_of_In_err agentName sc f steps hIn]
  | ok u =>
    rcases hL : inTickLoop agentName sc1 steps with ⟨r, sc2, evs2⟩
    cases r with
    | none =>
      have hIn := In_loop_none agentName sc f steps hT hL
      rw [hIn] at hret
      simp at hret
    | some e2 =>
      have hIn := In_loop_some agentName sc f steps hT hL
      rw [hIn] at hret
      have he2 : e = e2 := by
        have : some e2 = some e := hret
        exact (Option.some_injective _ this).symm
      subst he2
      have herr : ∃ m, e = Except.error m := by
        refine inTickLoop_some_is_error agentName steps sc1 e ?_
        rw [hL]
      rcases herr with ⟨m, hm⟩
      subst hm
      rw [hIn]
      have h0 : List.count HBEvent.deregisterCall evs2 = 0 := by
        have h1 := List.count_eq_zero_of_not_mem (fun hmem =>
          by simpa [isCleanupEvent] using
            inTickLoop_no_cleanup agentName steps sc1 HBEvent.deregisterCall hmem)
        rw [hL] at h1
        exact h1
      refine ⟨⟨m, rfl⟩, ?_, ⟨evs ++ evs2, by rw [List.append_assoc]⟩, ?_⟩
      · rw [List.count_append, List.count_append, hcountTick true sc f _ _ _ hT, h0]
        rfl
      · rw [heartbeatGoroutine_of_In_err agentName sc f steps hIn]

/-- Witness for `heartbeat_failure_cleanup`: a heartbeat whose first
Register call answers HTTP 500. -/
theorem heartbeat_failure_cleanup_witness :
    (In "lab-1" 1 (TickOutcome.status 500) []).1 =
      some (Except.error "unexpected status code from the in endpoint") ∧
    ((∃ msg, (Except.error "unexpected status code from the in endpoint" :
        Except String Unit) = Except.error msg) ∧
     List.count HBEvent.deregisterCall (In "lab-1" 1 (TickOutcome.status 500) []).2.2 = 1 ∧
     (∃ pre, (In "lab-1" 1 (TickOutcome.status 500) []).2.2 =
       pre ++ [HBEvent.deregisterCall, HBEvent.cancelProcess]) ∧
     (heartbeatGoroutine "lab-1" 1 (TickOutcome.status 500) []).2.2 =
       (In "lab-1" 1 (TickOutcome.status 500) []).2.2 ++ [HBEvent.exitProcess]) :=
  ⟨rfl, heartbeat_failure_cleanup "lab-1" 1 (TickOutcome.status 500) [] _ rfl⟩

/-- C2 (counterexample): when the very first heartbeat Register call
answers HTTP 500, the heartbeat loop does exit and issues exactly one
Deregister — but it then fires the process-wide `cancel()` (under which
the session's accept loop returns at its next poll instead of continuing)
and the hook goroutine terminates the whole process, contradicting the
claim that forwarding continues and the process never terminates. -/
theorem c2_counterexample :
    (heartbeatGoroutine "lab-1" 1 (TickOutcome.status 500) []).2.2 =
      [HBEvent.registerCall, HBEvent.deregisterCall, HBEvent.cancelProcess,
        HBEvent.exitProcess] ∧
    List.count HBEvent.deregisterCall
      (heartbeatGoroutine "lab-1" 1 (TickOutcome.status 500) []).2.2 = 1 ∧
    HBEvent.cancelProcess ∈ (heartbeatGoroutine "lab-1" 1 (TickOutcome.status 500) []).2.2 ∧
    HBEvent.exitProcess ∈ (heartbeatGoroutine "lab-1" 1 (TickOutcome.status 500) []).2.2 ∧
    (SSHR.acceptLoop [AcceptIter.cancelled]).1 = some (Except.ok ()) := by
  refine ⟨rfl, rfl, ?_, ?_, rfl⟩ <;> decide

lemma tickCallback_false_no_rename (name : String) (sc : Nat) (o : TickOutcome) (n : String) :
    HBEvent.renameCall n ∉ (inFunctionTickCallback name false sc o).2.2 := by
  cases o with
  | transportErr => simp [inFunctionTickCallback]
  | status code =>
    simp only [inFunctionTickCallback]
    split_ifs <;> simp_all

lemma inTickLoop_no_rename (name : String) (n : String) :
    ∀ (steps : List TickStep) (sc : Nat),
      HBEvent.renameCall n ∉ (inTickLoop name sc steps).2.2 := by
  intro steps
  induction steps with
  | nil => intro sc; simp [inTickLoop]
  | cons s rest ih =>
    intro sc
    cases s with
    | cancelled => simp [inTickLoop]
    | tick o =>
      rcases hT : inFunctionTickCallback name false sc o with ⟨te, sc1, evs⟩
      cases te with
      | error e =>
        rw [inTickLoop_tick_err_events name sc o rest hT]
        have := tickCallback_false_no_rename name sc o n
        rw [hT] at this
        exact this
      | ok u =>
        rw [inTickLoop_tick_ok_events name sc o rest hT]
        intro hmem
        rcases List.mem_append.1 hmem with hm | hm
        · have := tickCallback_false_no_rename name sc o n
          rw [hT] at this
          exact this hm
        · exact ih sc1 hm

lemma tickCallback_first_rename_structure (name : String) (sc : Nat) (f : TickOutcome)
    (n : String) :
    List.count (HBEvent.renameCall n) (inFunctionTickCallback name true sc f).2.2 ≤ 1 ∧
    (HBEvent.renameCall n ∈ (inFunctionTickCallback name true sc f).2.2 →
      n = name ∧ ∃ rest, (inFunctionTickCallback name true sc f).2.2 =
        HBEvent.registerCall :: HBEvent.registerOk :: HBEvent.renameCall name :: rest) := by
  cases f with
  | transportErr =>
    constructor
    · simp [inFunctionTickCallback, List.count_cons]
    · simp [inFunctionTickCallback]
  | status code =>
    simp only [inFunctionTickCallback]
    split_ifs with h1 h2 h3 h3
    · constructor
      · simp [List.count_cons]
      · simp
    · constructor
      · by_cases hn : n = name <;> simp [List.count_cons, hn]
      · intro hmem
        simp at hmem
        exact ⟨hmem, [HBEvent.printSuccess], rfl⟩
    · constructor
      · by_cases hn : n = name <;> simp [List.count_cons, hn]
      · intro hmem
        simp at hmem
        exact ⟨hmem, [], rfl⟩
    · constructor
      · simp [List.count_cons]
      · simp
    · constructor
      · simp [List.count_cons]
      · simp

lemma In_events_split (agentName : String) (sc : Nat) (f : TickOutcome)
    (steps : List TickStep) :
    ∃ (te : Except String Unit) (sc1 : Nat) (evs tail : List HBEvent),
      inFunctionTickCallback agentName true sc f = (te, sc1, evs) ∧
      (In agentName sc f steps).2.2 = evs ++ tail ∧
      ∀ n : String, HBEvent.renameCall n ∉ tail := by
  rcases hT : inFunctionTickCallback agentName true sc f with ⟨te, sc1, evs⟩
  cases te with
  | error m =>
    refine ⟨Except.error m, sc1, evs, [HBEvent.deregisterCall, HBEvent.cancelProcess], rfl, ?_, ?_⟩
    · rw [In_first_err agentName sc f steps hT]
    · intro n
      simp
  | ok u =>
    rcases hL : inTickLoop agentName sc1 steps with ⟨r, sc2, evs2⟩
    have hnoRen : ∀ n : String, HBEvent.renameCall n ∉ evs2 := by
      intro n hm
      have := inTickLoop_no_rename agentName n steps sc1
      rw [hL] at this
      exact this hm
    cases r with
    | none =>
      refine ⟨Except.ok u, sc1, evs, evs2, rfl, ?_, hnoRen⟩
      rw [In_loop_none agentName sc f steps hT hL]
    | some e2 =>
      refine ⟨Except.ok u, sc1, evs,
        evs2 ++ [HBEvent.deregisterCall, HBEvent.cancelProcess], rfl, ?_, ?_⟩
      · rw [In_loop_some agentName sc f steps hT hL, List.append_assoc]
      · intro n hm
        rcases List.mem_append.1 hm with hm2 | hm2
        · exact hnoRen n hm2
        · simp at hm2

/-- C7 (amended): within a single heartbeat-loop run, the Rename call is
issued at most once, and only strictly after that run's first successful
Register call (the run's events then begin with the Register call, its
success, and the Rename).  The "at most once" bound is per heartbeat-loop
run, not per process lifetime: each session that reaches `Forwarding`
starts a fresh heartbeat loop, which renames again. -/
theorem rename_once_per_heartbeat_run (agentName : String) (sc : Nat) (f : TickOutcome)
    (steps : List TickStep) (n : String) :
    List.count (HBEvent.renameCall n) (In agentName sc f steps).2.2 ≤ 1 ∧
    (HBEvent.renameCall n ∈ (In agentName sc f steps).2.2 →
      n = agentName ∧ ∃ rest, (In agentName sc f steps).2.2 =
        HBEvent.registerCall :: HBEvent.registerOk :: HBEvent.renameCall agentName :: rest) := by
  obtain ⟨te, sc1, evs, tail, hT, hsplit, htail⟩ := In_events_split agentName sc f steps
  have hstruct := tickCallback_first_rename_structure agentName sc f n
  rw [hT] at hstruct
  have hcount : List.count (HBEvent.renameCall n) evs ≤ 1 := hstruct.1
  have hmemS : HBEvent.renameCall n ∈ evs → n = agentName ∧
      ∃ rest, evs = HBEvent.registerCall :: HBEvent.registerOk ::
        HBEvent.renameCall agentName :: rest := hstruct.2
  rw [hsplit]
  constructor
  · rw [List.count_append, List.count_eq_zero_of_not_mem (htail n)]
    simpa using hcount
  · intro hmem
    rcases List.mem_append.1 hmem with hm | hm
    · obtain ⟨hn, rest, hevs⟩ := hmemS hm
      refine ⟨hn, rest ++ tail, ?_⟩
      rw [hevs]
      rfl
    · exact absurd hm (htail n)

/-- Witness for `rename_once_per_heartbeat_run`: a heartbeat run whose
first Register succeeds does contain a Rename event, and the theorem
applies to it. -/
theorem rename_once_per_heartbeat_run_witness :
    (List.count (HBEvent.renameCall "lab-1") (In "lab-1" 2 (TickOutcome.status 200) []).2.2 ≤ 1 ∧
     (HBEvent.renameCall "lab-1" ∈ (In "lab-1" 2 (TickOutcome.status 200) []).2.2 →
       "lab-1" = "lab-1" ∧ ∃ rest, (In "lab-1" 2 (TickOutcome.status 200) []).2.2 =
         HBEvent.registerCall :: HBEvent.registerOk :: HBEvent.renameCall "lab-1" :: rest)) ∧
    HBEvent.renameCall "lab-1" ∈ (In "lab-1" 2 (TickOutcome.status 200) []).2.2 :=
  ⟨rename_once_per_heartbeat_run "lab-1" 2 (TickOutcome.status 200) [] "lab-1", by decide⟩

/-- C7 (counterexample): a process in which two sessions reach
`Forwarding` (e.g. the tunnel reconnects after an accept failure) starts
two heartbeat loops, and each issues its own Rename call after its first
successful Register — two Rename calls in one process lifetime, while
the process is still alive (no exit, no cancellation), contradicting "at
most once per process lifetime". -/
theorem c7_counterexample :
    List.count (HBEvent.renameCall "lab-1") (processHeartbeatEvents "lab-1" 0 c7Runs) = 2 ∧
    HBEvent.exitProcess ∉ processHeartbeatEvents "lab-1" 0 c7Runs ∧
    HBEvent.cancelProcess ∉ processHeartbeatEvents "lab-1" 0 c7Runs := by
  refine ⟨?_, ?_, ?_⟩ <;> decide

lemma splitOnDot_ne_nil (l : List Char) : splitOnDot l ≠ [] := by
  cases l with
  | nil => simp [splitOnDot]
  | cons c rest =>
    simp only [splitOnDot]
    split_ifs
    · simp
    · cases h : splitOnDot rest <;> simp

lemma mem_splitOnDot (c : Char) (hc : c ≠ '.') :
    ∀ l : List Char, c ∈ l → ∃ f ∈ splitOnDot l, c ∈ f := by
  intro l
  induction l with
  | nil => intro h; cases h
  | cons a rest ih =>
    intro h
    by_cases ha : a = '.'
    · subst ha
      have hcr : c ∈ rest := by
        rcases List.mem_cons.1 h with h1 | h1
        · exact absurd h1 hc
        · exact h1
      obtain ⟨f, hf, hcf⟩ := ih hcr
      have hsp : splitOnDot ('.' :: rest) = [] :: splitOnDot rest := by
        simp [splitOnDot]
      refine ⟨f, ?_, hcf⟩
      rw [hsp]
      exact List.mem_cons_of_mem _ hf
    · have hsp : splitOnDot (a :: rest) =
          match splitOnDot rest with
          | [] => [[a]]
          | f :: fs => (a :: f) :: fs := by
        simp [splitOnDot, ha]
      rcases hrest : splitOnDot rest with _ | ⟨f0, fs⟩
      · exact absurd hrest (splitOnDot_ne_nil rest)
      · rw [hsp, hrest]
        rcases List.mem_cons.1 h with h1 | h1
        · subst h1
          exact ⟨c :: f0, List.mem_cons_self _ _, List.mem_cons_self _ _⟩
        · obtain ⟨f, hf, hcf⟩ := ih h1
          rw [hrest] at hf
          rcases List.mem_cons.1 hf with h2 | h2
          · subst h2
            exact ⟨a :: f, List.mem_cons_self _ _, List.mem_cons_of_mem _ hcf⟩
          · exact ⟨f, List.mem_cons_of_mem _ h2, hcf⟩

lemma isIP_false_of_mem_bad (s : String) (c : Char) (hmem : c ∈ s.toList)
    (hdot : c ≠ '.') (hdig : c.isDigit = false) : isIP s = false := by
  cases hb : isIP s with
  | false => rfl
  | true =>
    exfalso
    have hb2 := hb
    simp only [isIP, Bool.and_eq_true] at hb2
    obtain ⟨f, hf, hcf⟩ := mem_splitOnDot c hdot s.toList hmem
    have hoct : isOctet f = true := List.all_eq_true.1 hb2.2 f hf
    simp only [isOctet, Bool.and_eq_true] at hoct
    have hdigits : f.all Char.isDigit = true := hoct.1.1.2
    have := List.all_eq_true.1 hdigits c hcf
    rw [hdig] at this
    cases this

lemma isIP_cidr_false (ip : String) (m : Nat) :
    isIP (ip ++ "/" ++ toString m) = false := by
  refine isIP_false_of_mem_bad _ '/' ?_ (by decide) (by decide)
  have hd : (ip ++ "/" ++ toString m).toList =
      (ip.toList ++ "/".toList) ++ (toString m).toList := rfl
  rw [hd]
  apply List.mem_append_left
  apply List.mem_append_right
  decide

lemma collectLocalIPs_cidr_empty (l : List (List NetAddr))
    (h : ∀ addrs ∈ l, ∀ a ∈ addrs, ∃ ip m, a = NetAddr.ipNet ip m) :
    collectLocalIPs (l.map Except.ok) = Except.ok [] := by
  induction l with
  | nil => rfl
  | cons addrs rest ih =>
    have hrest := ih (fun x hx a ha => h x (List.mem_cons_of_mem _ hx) a ha)
    have hfil : (addrs.map NetAddr.str).filter isIP = [] := by
      rw [List.filter_eq_nil_iff]
      intro x hx
      obtain ⟨a, ha, hax⟩ := List.mem_map.1 hx
      obtain ⟨ip, m, hm⟩ := h addrs (List.mem_cons_self _ _) a ha
      subst hm
      rw [← hax]
      simp [NetAddr.str, isIP_cidr_false ip m]
    have hstep : collectLocalIPs (List.map Except.ok (addrs :: rest)) =
        match collectLocalIPs (rest.map Except.ok) with
        | Except.error e => Except.error e
        | Except.ok ips => Except.ok ((addrs.map NetAddr.str).filter isIP ++ ips) := by
      simp only [List.map_cons, collectLocalIPs]
    rw [hstep, hrest]
    simp [hfil]

/-- C10: every interface address carries a network mask, so each
stringifies to CIDR form `ip/prefix`, which `iputil.IsIP` rejects; the
local-IP list is therefore empty and the accessibility probe returns
`false` (tunnel mode) even when the public IP is the address assigned to
a local interface. -/
theorem cidr_addresses_force_tunnel_mode (pub : String) (ifaceAddrs : List (List NetAddr))
    (hmask : ∀ addrs ∈ ifaceAddrs, ∀ a ∈ addrs, ∃ ip m, a = NetAddr.ipNet ip m) :
    getLocalIPs (Except.ok (ifaceAddrs.map Except.ok)) = Except.ok [] ∧
    isServiceAccessibleFromInternet (Except.ok pub)
      (Except.ok (ifaceAddrs.map Except.ok)) = Except.ok false := by
  have hc := collectLocalIPs_cidr_empty ifaceAddrs hmask
  have hg : getLocalIPs (Except.ok (ifaceAddrs.map Except.ok)) = Except.ok [] := hc
  constructor
  · exact hg
  · unfold isServiceAccessibleFromInternet
    rw [hg]
    rfl

/-- Witness for `cidr_addresses_force_tunnel_mode`: a host whose single
interface carries the public IP `52.23.190.1` with a `/24` mask; the
string `52.23.190.1/24` is not an IP literal even though `52.23.190.1`
is, so the probe still reports `false`. -/
theorem cidr_addresses_force_tunnel_mode_witness :
    (getLocalIPs (Except.ok ([[NetAddr.ipNet "52.23.190.1" 24]].map Except.ok)) =
        Except.ok [] ∧
      isServiceAccessibleFromInternet (Except.ok "52.23.190.1")
        (Except.ok ([[NetAddr.ipNet "52.23.190.1" 24]].map Except.ok)) = Except.ok false) ∧
    isIP "52.23.190.1" = true ∧
    isIP (NetAddr.str (NetAddr.ipNet "52.23.190.1" 24)) = false := by
  refine ⟨cidr_addresses_force_tunnel_mode "52.23.190.1" [[NetAddr.ipNet "52.23.190.1" 24]]
    ?_, by decide, by decide⟩
  intro addrs h a ha
  simp at h
  subst h
  simp at ha
  subst ha
  exact ⟨"52.23.190.1", 24, rfl⟩

lemma collectLocalIPs_error_iff (l : List (Except String (List NetAddr))) :
    (∃ e, collectLocalIPs l = Except.error e) ↔ ∃ x ∈ l, ∃ e, x = Except.error e := by
  induction l with
  | nil => simp [collectLocalIPs]
  | cons x rest ih =>
    cases x with
    | error e => simp [collectLocalIPs]
    | ok addrs =>
      constructor
      · rintro ⟨e, he⟩
        have herr : ∃ e2, collectLocalIPs rest = Except.error e2 := by
          cases hr : collectLocalIPs rest with
          | error e2 => exact ⟨e2, rfl⟩
          | ok ips =>
            exfalso
            simp only [collectLocalIPs] at he
            rw [hr] at he
            simp at he
        obtain ⟨x, hx, he3⟩ := ih.1 herr
        exact ⟨x, List.mem_cons_of_mem _ hx, he3⟩
      · rintro ⟨x, hx, e2, hex⟩
        rcases List.mem_cons.1 hx with h1 | h1
        · subst h1
          simp at hex
        · obtain ⟨e3, hr⟩ := ih.2 ⟨x, h1, e2, hex⟩
          refine ⟨e3, ?_⟩
          simp only [collectLocalIPs]
          rw [hr]

/-- C5 (amended): the accessibility probe surfaces a public-IP-fetch or
interface-enumeration failure as an error (never as "not reachable"), but
the caller's reaction to a probe error is `printConnectionFailure`, which
exits the process with status 1 — it is only a probe that successfully
returns `false` that makes `process` bind the proxy on all interfaces. -/
theorem accessibility_error_policy (pubIP : Except String String)
    (ifaces : Except String (List (Except String (List NetAddr)))) (pub : String) :
    ((∃ e, isServiceAccessibleFromInternet pubIP ifaces = Except.error e) ↔
      ((∃ e, pubIP = Except.error e) ∨ ∃ e, getLocalIPs ifaces = Except.error e)) ∧
    (∀ e, isServiceAccessibleFromInternet pubIP ifaces = Except.error e →
      chooseListenIp (isServiceAccessibleFromInternet pubIP ifaces) pub =
        ListenChoice.exitProcess) ∧
    chooseListenIp (Except.ok false) pub = ListenChoice.bindOn "0.0.0.0" := by
  refine ⟨?_, ?_, rfl⟩
  · cases pubIP with
    | error e =>
      constructor
      · intro _
        exact Or.inl ⟨e, rfl⟩
      · intro _
        exact ⟨e, rfl⟩
    | ok p =>
      cases hg : getLocalIPs ifaces with
      | error e =>
        constructor
        · intro _
          exact Or.inr ⟨e, rfl⟩
        · intro _
          refine ⟨e, ?_⟩
          unfold isServiceAccessibleFromInternet
          rw [hg]
      | ok locals =>
        constructor
        · rintro ⟨e, he⟩
          exfalso
          unfold isServiceAccessibleFromInternet at he
          rw [hg] at he
          simp at he
        · rintro (⟨e, he⟩ | ⟨e, he⟩)
          · simp at he
          · simp at he
  · intro e he
    rw [he]
    rfl

/-- Witness for `accessibility_error_policy`: a failed public-IP fetch
makes `process` exit rather than bind on all interfaces. -/
theorem accessibility_error_policy_witness :
    chooseListenIp (isServiceAccessibleFromInternet
        (Except.error "Get https://api.ipify.org: i/o timeout") (Except.ok []))
      "3.3.3.3" = ListenChoice.exitProcess :=
  (accessibility_error_policy (Except.error "Get https://api.ipify.org: i/o timeout")
    (Except.ok []) "3.3.3.3").2.1 "Get https://api.ipify.org: i/o timeout" rfl

/-- C5 (counterexample): when fetching the public IP fails, the probe
does return the failure as an error — but the caller exits the process
(`printConnectionFailure`, `os.Exit(1)`) instead of logging and
continuing to bind the proxy on all interfaces as the claim states. -/
theorem c5_counterexample :
    isServiceAccessibleFromInternet
        (Except.error "Get https://api.ipify.org: i/o timeout") (Except.ok []) =
      Except.error "Get https://api.ipify.org: i/o timeout" ∧
    chooseListenIp (isServiceAccessibleFromInternet
        (Except.error "Get https://api.ipify.org: i/o timeout") (Except.ok []))
      "3.3.3.3" = ListenChoice.exitProcess ∧
    ListenChoice.exitProcess ≠ ListenChoice.bindOn "0.0.0.0" := by
  refine ⟨rfl, rfl, by decide⟩

/-- C8: in every tunnel-mode execution, exactly one Deregister call is
issued, then exactly one AllocatePort call, and only after it completes
can any secure-shell dial occur — the events always begin with the
Deregister followed by the AllocatePort, and neither call reappears
later. -/
theorem startup_deregister_before_allocate_before_dial (allocResult : Except String Nat)
    (attempts : List SessionEnv) :
    (∃ rest, processTunnelModeEvents allocResult attempts =
        ProcEvent.deregister :: ProcEvent.allocatePortCall :: rest ∧
      ProcEvent.deregister ∉ rest ∧ ProcEvent.allocatePortCall ∉ rest) ∧
    List.count ProcEvent.deregister (processTunnelModeEvents allocResult attempts) = 1 ∧
    List.count ProcEvent.allocatePortCall
      (processTunnelModeEvents allocResult attempts) = 1 := by
  cases allocResult with
  | error e =>
    refine ⟨⟨[ProcEvent.exitStartup], rfl, by simp, by simp⟩, rfl, rfl⟩
  | ok p =>
    have hnd : ProcEvent.deregister ∉ attempts.map (fun _ => ProcEvent.dial p) := by
      intro hm
      obtain ⟨a, _, ha⟩ := List.mem_map.1 hm
      cases ha
    have hna : ProcEvent.allocatePortCall ∉ attempts.map (fun _ => ProcEvent.dial p) := by
      intro hm
      obtain ⟨a, _, ha⟩ := List.mem_map.1 hm
      cases ha
    refine ⟨⟨attempts.map (fun _ => ProcEvent.dial p), rfl, hnd, hna⟩, ?_, ?_⟩
    · simp only [processTunnelModeEvents, List.count_cons]
      rw [List.count_eq_zero_of_not_mem hnd]
      simp
    · simp only [processTunnelModeEvents, List.count_cons]
      rw [List.count_eq_zero_of_not_mem hna]
      simp

/-- C4 (amended): the remote listening port is requested from the control
plane exactly once, at startup, before the session loop starts; every
retry attempt dials carrying that same port — the port is reused, not
re-requested, across attempts. -/
theorem remote_port_allocated_once_and_reused (p : Nat) (attempts : List SessionEnv)
    (q : Nat) (hq : ProcEvent.dial q ∈ processTunnelModeEvents (Except.ok p) attempts) :
    List.count ProcEvent.allocatePortCall
      (processTunnelModeEvents (Except.ok p) attempts) = 1 ∧ q = p := by
  constructor
  · have hna : ProcEvent.allocatePortCall ∉ attempts.map (fun _ => ProcEvent.dial p) := by
      intro hm
      obtain ⟨a, _, ha⟩ := List.mem_map.1 hm
      cases ha
    simp only [processTunnelModeEvents, List.count_cons]
    rw [List.count_eq_zero_of_not_mem hna]
    simp
  · simp only [processTunnelModeEvents] at hq
    rcases List.mem_cons.1 hq with h1 | h1
    · cases h1
    · rcases List.mem_cons.1 h1 with h2 | h2
      · cases h2
      · obtain ⟨a, _, ha⟩ := List.mem_map.1 h2
        cases ha
        rfl

/-- Witness for `remote_port_allocated_once_and_reused`: a run with two
attempts dialing with the single allocated port 41234. -/
theorem remote_port_allocated_once_and_reused_witness :
    List.count ProcEvent.allocatePortCall
      (processTunnelModeEvents (Except.ok 41234)
        [⟨false, false, []⟩, ⟨false, false, []⟩]) = 1 ∧ (41234 : Nat) = 41234 :=
  remote_port_allocated_once_and_reused 41234 [⟨false, false, []⟩, ⟨false, false, []⟩]
    41234 (by decide)

/-- C4 (counterexample): with two session attempts the whole execution
contains a single AllocatePort call — issued once at startup — and both
attempts dial with the same port 41234; the port is not re-requested
before the second attempt as the claim states. -/
theorem c4_counterexample :
    processTunnelModeEvents (Except.ok 41234) [⟨false, false, []⟩, ⟨false, false, []⟩] =
      [ProcEvent.deregister, ProcEvent.allocatePortCall,
        ProcEvent.dial 41234, ProcEvent.dial 41234] ∧
    List.count ProcEvent.allocatePortCall
      (processTunnelModeEvents (Except.ok 41234)
        [⟨false, false, []⟩, ⟨false, false, []⟩]) = 1 ∧
    List.count (ProcEvent.dial 41234)
      (processTunnelModeEvents (Except.ok 41234)
        [⟨false, false, []⟩, ⟨false, false, []⟩]) = 2 := by
  refine ⟨rfl, rfl, rfl⟩
